import Mathlib

/-!
Verification of the UWB HAL default implementation
(`uwb/aidl/default/src/uwb_chip.rs`).

The development has two parts:

1. A model of the UCI reader task spawned in `UwbChip::open`
   (lines 178-247 of the source): the task repeatedly reads a 4-byte
   header from the serial device, decodes the payload length, reads the
   payload, and forwards the assembled buffer to the client callbacks.
   The serial device is modelled as a byte stream (`List Nat`) together
   with a script of low-level events (`Ev`) describing what each
   `read(2)` call and each `select!` returns.

2. A model of the session state machine (`State`, `UwbChip::open`,
   `State::close`, `UwbChip::close`, the `DeathRecipient` closure,
   `UwbChip::sendUciMessage`): explicit state passing over a `World`
   record, with external failures (binder calls, I/O) driven by oracle
   records, and the side effects recorded in an action trace.
-/

namespace Uwb

/-- Events produced by the serial device and the cooperative scheduler, as
observed by the reader task.  Each call to `File::read` consumes one of the
first three constructors; each `select!` between the token and fd readiness
consumes a `sel` event (`sel true` means the token fired first). -/
inductive Ev where
  /-- The fd is readable and the OS delivers up to `k + 1` bytes of the
  stream (at least one byte when the stream is nonempty; `read` returns
  `Ok(0)` exactly when the stream is exhausted, i.e. end of file). -/
  | deliver : Nat → Ev
  /-- The `read` call fails with `ErrorKind::WouldBlock`. -/
  | wouldBlock : Ev
  /-- The `read` call fails with an I/O error other than `WouldBlock`. -/
  | ioErr : Ev
  /-- Outcome of a `select!`: `true` when the token fired first,
  `false` when the fd became readable first. -/
  | sel : Bool → Ev
deriving DecidableEq

/-- Payload length decoding from the 4-byte UCI header, from lines 229-236
of `uwb_chip.rs`: `mt = (buffer[0] & 0b11100000) >> 5`; for the data
message type (`mt = 0`) the length is `u16::from_le_bytes(buffer[2..=3])`,
otherwise it is `buffer[3]`. -/
def payloadLength (buffer : List Nat) : Nat :=
  let common_header := buffer.getD 0 0
  let mt := (common_header &&& 0xE0) >>> 5
  if mt = 0 then
    (buffer.getD 2 0) + 256 * (buffer.getD 3 0)
  else
    buffer.getD 3 0

/-- Result of the `read_exact` helper (lines 118-128 of `uwb_chip.rs`). -/
inductive RexOut where
  /-- The buffer was filled completely. -/
  | ok
  /-- A read returned `Ok(0)`: the source does
  `panic!("unexpectedly reached end of file")`. -/
  | panicEof
  /-- A read failed with an error other than `WouldBlock`; the source
  returns `Err(err)` (always `unwrap`ped by the callers). -/
  | err
  /-- The event script ended or was ill-formed (modelling artefact). -/
  | stuck
deriving DecidableEq

/-- Model of `read_exact(file, buf)` with `buf.len() = need`
(lines 118-128 of `uwb_chip.rs`): loop reading into the unfilled suffix;
`Ok(0)` panics, `WouldBlock` retries, any other error is returned.
Returns the outcome, the bytes read, the remaining stream and the
remaining event script. -/
def readExact : List Ev → List Nat → Nat → RexOut × List Nat × List Nat × List Ev
  | evs, stream, 0 => (.ok, [], stream, evs)
  | [], stream, _+1 => (.stuck, [], stream, [])
  | .deliver k :: evs, stream, n+1 =>
      if stream.isEmpty then (.panicEof, [], stream, evs)
      else
        let m := min (k+1) (n+1)
        let got := stream.take m
        let r := readExact evs (stream.drop m) (n + 1 - got.length)
        (r.1, got ++ r.2.1, r.2.2.1, r.2.2.2)
  | .wouldBlock :: evs, stream, n+1 => readExact evs stream (n+1)
  | .ioErr :: evs, stream, _+1 => (.err, [], stream, evs)
  | .sel _ :: evs, stream, _+1 => (.stuck, [], stream, evs)

/-- Result of the cancellable first read of a frame header. -/
inductive FirstOut where
  /-- The read returned at least one byte. -/
  | got : List Nat → FirstOut
  /-- The token fired while waiting for readiness: the task returns. -/
  | cancelled
  /-- The read returned `Ok(0)`: the task logs "file unexpectedly closed"
  and returns. -/
  | eofExit
  /-- The read failed: the source does `panic!("unexpected read failure")`. -/
  | panicked
  /-- The event script ended or was ill-formed (modelling artefact). -/
  | stuck
deriving DecidableEq

/-- Model of the inner loop at lines 197-224 of `uwb_chip.rs`: try a
nonblocking 4-byte read; on `WouldBlock`, `select!` between token
cancellation and fd readiness, clear the readiness flag and retry.
This is the only point where the token is observed. -/
def firstRead : List Ev → List Nat → FirstOut × List Nat × List Ev
  | [], s => (.stuck, s, [])
  | .deliver k :: evs, s =>
      if s.isEmpty then (.eofExit, s, evs)
      else (.got (s.take (min (k+1) 4)), s.drop (min (k+1) 4), evs)
  | .ioErr :: evs, s => (.panicked, s, evs)
  | .sel _ :: evs, s => (.stuck, s, evs)
  | .wouldBlock :: .sel true :: evs, s => (.cancelled, s, evs)
  | .wouldBlock :: .sel false :: evs, s => firstRead evs s
  | .wouldBlock :: evs, s => (.stuck, s, evs)

/-- Terminal outcome of the reader task. -/
inductive ReaderOut where
  /-- The token fired at the header suspension point: normal return. -/
  | cancelled
  /-- A first read returned `Ok(0)`: logged graceful return. -/
  | eofExit
  /-- The task panicked (read failure, or `unwrap` of a failed
  `read_exact`). -/
  | panicked
  /-- Fuel or event script exhausted (modelling artefact). -/
  | stuck
deriving DecidableEq

/-- Model of the reader task loop at lines 182-246 of `uwb_chip.rs`.  Per
iteration: cancellable first read of up to 4 header bytes; `read_exact` of
the remaining header bytes; payload length decoding; `read_exact` of the
payload; delivery of the whole buffer via `onUciMessage`.  Returns the
delivered buffers in order, the terminal outcome, the unread stream and
the unconsumed events.  `fuel` bounds the number of loop iterations; each
iteration consumes at least one event, so any `fuel > evs.length`
behaves identically to `evs.length + 1`. -/
def readerRun : Nat → List Ev → List Nat → List (List Nat) × ReaderOut × List Nat × List Ev
  | 0, evs, stream => ([], .stuck, stream, evs)
  | fuel+1, evs, stream =>
    match firstRead evs stream with
    | (.got got, s1, e1) =>
      match readExact e1 s1 (4 - got.length) with
      | (.ok, hdrRest, s2, e2) =>
        let header := got ++ hdrRest
        match readExact e2 s2 (payloadLength header) with
        | (.ok, payload, s3, e3) =>
          let r := readerRun fuel e3 s3
          ((header ++ payload) :: r.1, r.2)
        | (.stuck, _, s3, e3) => ([], .stuck, s3, e3)
        | (.panicEof, _, s3, e3) => ([], .panicked, s3, e3)
        | (.err, _, s3, e3) => ([], .panicked, s3, e3)
      | (.stuck, _, s2, e2) => ([], .stuck, s2, e2)
      | (.panicEof, _, s2, e2) => ([], .panicked, s2, e2)
      | (.err, _, s2, e2) => ([], .panicked, s2, e2)
    | (.cancelled, s1, e1) => ([], .cancelled, s1, e1)
    | (.eofExit, s1, e1) => ([], .eofExit, s1, e1)
    | (.panicked, s1, e1) => ([], .panicked, s1, e1)
    | (.stuck, s1, e1) => ([], .stuck, s1, e1)

/-- Canonical event script under which one whole frame `f` arrives: the
first read delivers the full 4-byte header, and (when the payload is
nonempty) one further read delivers the full payload. -/
def frameEvents (f : List Nat) : List Ev :=
  let p := payloadLength (f.take 4)
  .deliver 3 :: (if p = 0 then [] else [.deliver (p - 1)])

/-- Canonical event script for a list of frames arriving back-to-back. -/
def framesEvents (fs : List (List Nat)) : List Ev :=
  (fs.map frameEvents).flatten

/-- The two variants of the `State` enum (lines 22-31 of `uwb_chip.rs`).
The fields of `Opened` (callbacks, task handle, serial file, death
recipient, token) are modelled by the other `World` fields. -/
inductive SessionState where
  | Closed
  | Opened
deriving DecidableEq

/-- Events signalled to the client callbacks through `onHalEvent`. -/
inductive HalEvent where
  | OPEN_CPLT
  | CLOSE_CPLT
  | POST_INIT_CPLT
deriving DecidableEq

/-- Observable actions performed by the driver, recorded in order. -/
inductive Act where
  /-- A successful `unlink_to_death` of the death recipient. -/
  | unlink
  /-- The token's `cancel()`. -/
  | cancelToken
  /-- A completed `handle.await` of the reader task. -/
  | joinTask
  /-- Bytes accepted by one `write` or `write_all` call on the serial fd. -/
  | serialWrite : List Nat → Act
  /-- Bytes drained from the serial fd. -/
  | serialRead : List Nat → Act
  /-- One `onHalEvent` call. -/
  | halEvent : HalEvent → Act
  /-- The `link_to_death` of a fresh death recipient. -/
  | linkDeath
  /-- The `tokio::task::spawn` of the reader task. -/
  | spawnReader
deriving DecidableEq

/-- Explicit state of one `UwbChip` together with its serial transport:
the guarded session state, whether a spawned reader task is still live,
whether a death recipient is currently linked, the bytes pending on the
serial read side, and the trace of observable actions. -/
structure World where
  session : SessionState
  readerRunning : Bool
  deathLinked : Bool
  rxQueue : List Nat
  trace : List Act
deriving DecidableEq

/-- Errors returned by the operations: `ILLEGAL_STATE` exceptions,
`UNKNOWN_ERROR` status codes, and errors propagated with `?` from
`link_to_death`/`unlink_to_death` or from `onHalEvent` calls. -/
inductive BinderErr where
  | illegalState
  | unknownError
  | linkErr
  | callbackErr
deriving DecidableEq

/-- Result of one `File::write` call seen from the driver: the number of
bytes the transport accepted, or an I/O error. -/
inductive WriteRes where
  | ok : Nat → WriteRes
  | ioErr
deriving DecidableEq

/-- Outcomes of the fallible external calls made during `UwbChip::open`. -/
structure OpenOracle where
  /-- Whether `OpenOptions::open` plus `makeraw` succeeds. -/
  serialOk : Bool
  /-- Whether `link_to_death` succeeds. -/
  linkOk : Bool
  /-- Whether `serial.try_clone()` succeeds. -/
  cloneOk : Bool
  /-- Whether `onHalEvent(OPEN_CPLT, OK)` succeeds. -/
  openCpltOk : Bool

/-- Outcomes of the fallible external calls made during `State::close`:
one `WriteRes` per written packet chunk (full acceptance assumed when the
list is shorter than the chunk list). -/
structure CloseOracle where
  /-- Whether `unlink_to_death` succeeds. -/
  unlinkOk : Bool
  /-- Whether `handle.await.unwrap()` succeeds (false when the reader task
  itself panicked, which makes the `unwrap` panic). -/
  joinOk : Bool
  /-- Whether `serial.try_clone()` succeeds. -/
  cloneOk : Bool
  /-- Result of the `serial.write` call for each packet chunk. -/
  writeRes : List WriteRes
  /-- Whether `onHalEvent(CLOSE_CPLT, OK)` succeeds. -/
  closeCpltOk : Bool

/-- Outcome of the external call made during `sendUciMessage`. -/
structure SendOracle where
  /-- Whether `serial.write_all(data)` succeeds. -/
  writeAllOk : Bool

/-- Expected DeviceResetRsp bytes (line 95 of `uwb_chip.rs`). -/
def DEVICE_RESET_RSP : List Nat := [64, 0, 0, 1, 0]

/-- Expected DeviceStatusNtf bytes (line 96 of `uwb_chip.rs`). -/
def DEVICE_STATUS_NTF : List Nat := [96, 1, 0, 1, 1]

/-- Model of the write loop at lines 72-77 of `uwb_chip.rs`: one
`serial.write` call per packet chunk, in order.  The accepted byte count
of each write is discarded by the source (`.map(|written| written as i32)`
is dropped), so a short write is not detected; an I/O error aborts the
loop with `UNKNOWN_ERROR`.  Returns the write actions performed and
whether every call succeeded. -/
def writeChunks : List WriteRes → List (List Nat) → List Act × Bool
  | _, [] => ([], true)
  | rs, c :: rest =>
    match rs.headD (.ok c.length) with
    | .ok n =>
      let r := writeChunks rs.tail rest
      (.serialWrite (c.take n) :: r.1, r.2)
    | .ioErr => ([], false)

/-- Result of `State::close` / `UwbChip::close`. -/
inductive CloseRes where
  /-- `Ok(())`. -/
  | ok
  /-- `Err(e)`. -/
  | err : BinderErr → CloseRes
  /-- The call panicked (failed `assert_eq` or `unwrap`). -/
  | panic
  /-- The `read_exact` inside `consume_device_reset_rsp_and_ntf` spins
  forever because fewer than 10 bytes ever arrive. -/
  | blocked
deriving DecidableEq

/-- Model of `State::close` (lines 51-88 of `uwb_chip.rs`), parameterised
by the encoded DeviceResetCmd.  `chunks` is modelled from the spec: the
command is built and encoded by the `uwb_uci_packets` crate (not part of
this repository) and "may be split into multiple transport-level packets,
each written in sequence" (spec section 4.3), so the encoding is kept
abstract as a list of byte chunks.  On the `Opened` variant: unlink the
death recipient, cancel the token, await the reader task, write the
command chunks, drain and check exactly 10 confirmation bytes
(`consume_device_reset_rsp_and_ntf`, lines 91-103: a `read_exact` into a
10-byte buffer followed by two `assert_eq` checks against
`DEVICE_RESET_RSP` and `DEVICE_STATUS_NTF`), signal `CLOSE_CPLT`, and
only then set the state to `Closed`.  On the `Closed` variant the
`if let` falls through and the function returns `Ok(())`. -/
def stateClose (chunks : List (List Nat)) (orc : CloseOracle) (w : World) : CloseRes × World :=
  match w.session with
  | .Closed => (.ok, w)
  | .Opened =>
    if !orc.unlinkOk then (.err .linkErr, w)
    else
      let w1 : World := { w with deathLinked := false,
                                 trace := w.trace ++ [.unlink, .cancelToken] }
      if !orc.joinOk then (.panic, w1)
      else
        let w2 : World := { w1 with readerRunning := false,
                                    trace := w1.trace ++ [.joinTask] }
        let wr := writeChunks orc.writeRes chunks
        let w3 : World := { w2 with trace := w2.trace ++ wr.1 }
        if !wr.2 then (.err .unknownError, w3)
        else if !orc.cloneOk then (.err .unknownError, w3)
        else if w3.rxQueue.length < 10 then (.blocked, w3)
        else
          let drained := w3.rxQueue.take 10
          let w4 : World := { w3 with rxQueue := w3.rxQueue.drop 10,
                                      trace := w3.trace ++ [.serialRead drained] }
          if drained ≠ DEVICE_RESET_RSP ++ DEVICE_STATUS_NTF then (.panic, w4)
          else
            let w5 : World := { w4 with trace := w4.trace ++ [.halEvent .CLOSE_CPLT] }
            if !orc.closeCpltOk then (.err .callbackErr, w5)
            else (.ok, { w5 with session := .Closed })

/-- Model of `IUwbChipAsyncServer::close` for `UwbChip`
(lines 262-272 of `uwb_chip.rs`): `ILLEGAL_STATE` when the state is
`Closed`, otherwise delegate to `State::close`. -/
def chipClose (chunks : List (List Nat)) (orc : CloseOracle) (w : World) : CloseRes × World :=
  match w.session with
  | .Opened => stateClose chunks orc w
  | .Closed => (.err .illegalState, w)

/-- Model of the `DeathRecipient` closure registered in `UwbChip::open`
(lines 158-165 of `uwb_chip.rs`): under the state lock, if the state is
`Opened`, cancel the token and set the state to `Closed`; otherwise do
nothing.  It does not await the reader task, performs no serial I/O and
signals no event. -/
def deathCallback (w : World) : World :=
  match w.session with
  | .Opened => { w with session := .Closed, trace := w.trace ++ [.cancelToken] }
  | .Closed => w

/-- Result of `UwbChip::open`. -/
inductive OpenRes where
  | ok
  | err : BinderErr → OpenRes
deriving DecidableEq

/-- Model of `IUwbChipAsyncServer::open` for `UwbChip` (lines 138-260 of
`uwb_chip.rs`): `ILLEGAL_STATE` when already `Opened`; otherwise open the
serial device, link a fresh death recipient, clone the fd for the reader,
spawn the reader task, signal `OPEN_CPLT` and finally set the state to
`Opened`.  A failure of the `OPEN_CPLT` callback returns early, after the
task was spawned and the recipient linked but before the state is set. -/
def chipOpen (orc : OpenOracle) (w : World) : OpenRes × World :=
  match w.session with
  | .Opened => (.err .illegalState, w)
  | .Closed =>
    if !orc.serialOk then (.err .unknownError, w)
    else if !orc.linkOk then (.err .linkErr, w)
    else
      let w1 : World := { w with deathLinked := true, trace := w.trace ++ [.linkDeath] }
      if !orc.cloneOk then (.err .unknownError, w1)
      else
        let w2 : World := { w1 with readerRunning := true,
                                    trace := w1.trace ++ [.spawnReader, .halEvent .OPEN_CPLT] }
        if !orc.openCpltOk then (.err .callbackErr, w2)
        else (.ok, { w2 with session := .Opened })

/-- Model of `IUwbChipAsyncServer::sendUciMessage` for `UwbChip`
(lines 295-309 of `uwb_chip.rs`): `ILLEGAL_STATE` when `Closed`;
otherwise `serial.write_all(data)`, returning `data.len()` on success and
`UNKNOWN_ERROR` on any I/O failure, with no retry. -/
def sendUciMessage (orc : SendOracle) (data : List Nat) (w : World) : Except BinderErr Nat × World :=
  match w.session with
  | .Opened =>
    if orc.writeAllOk then
      (.ok data.length, { w with trace := w.trace ++ [.serialWrite data] })
    else
      (.error .unknownError, w)
  | .Closed => (.error .illegalState, w)

/-- Reading zero further bytes succeeds immediately. -/
theorem readExact_zero (evs : List Ev) (s : List Nat) :
    readExact evs s 0 = (.ok, [], s, evs) := by
  cases evs with
  | nil => rfl
  | cons ev evs => cases ev <;> rfl

/-- A cancelled first read leaves the stream untouched. -/
theorem firstRead_cancelled_eq (evs : List Ev) (s s' : List Nat) (e' : List Ev)
    (h : firstRead evs s = (.cancelled, s', e')) : s' = s := by
  induction evs, s using firstRead.induct <;> simp_all [firstRead]

/-- A successful first read returns a nonempty prefix of at most 4 bytes
of the stream. -/
theorem firstRead_got_eq (evs : List Ev) (s : List Nat) (g s' : List Nat) (e' : List Ev)
    (h : firstRead evs s = (.got g, s', e')) : s = g ++ s' ∧ g.length ≤ 4 := by
  induction evs, s using firstRead.induct with
  | case3 k evs s hs =>
    simp only [firstRead, hs, if_neg, if_false, Prod.mk.injEq, FirstOut.got.injEq,
      Bool.false_eq_true] at h
    obtain ⟨hg, hs', he⟩ := h
    subst hg hs'
    exact ⟨(List.take_append_drop _ s).symm,
      le_trans (List.length_take_le _ _) (Nat.min_le_right _ _)⟩
  | case7 evs s ih => exact ih (by simpa [firstRead] using h)
  | _ => simp_all [firstRead]

/-- A successful `readExact` returns exactly `need` bytes taken off the
front of the stream. -/
theorem readExact_ok_eq (evs : List Ev) (s : List Nat) (n : Nat) :
    ∀ (bs s' : List Nat) (e' : List Ev),
      readExact evs s n = (.ok, bs, s', e') → s = bs ++ s' ∧ bs.length = n := by
  induction evs, s, n using readExact.induct with
  | case1 evs s =>
    intro bs s' e' h
    rw [readExact_zero] at h
    simp only [Prod.mk.injEq] at h
    obtain ⟨-, h1, h2, -⟩ := h
    subst h1 h2
    exact ⟨rfl, rfl⟩
  | case2 s n => intro bs s' e' h; simp [readExact] at h
  | case3 k evs s n hs => intro bs s' e' h; simp [readExact, hs] at h
  | case4 k evs s n hs m got ih =>
    intro bs s' e' h
    have hm : m = min (k+1) (n+1) := rfl
    have hgot : got = s.take m := rfl
    clear_value m got
    subst hgot
    subst hm
    simp only [readExact, hs, Bool.false_eq_true, if_false] at h
    rcases hr : readExact (Ev.deliver k :: evs).tail
        (s.drop (min (k+1) (n+1))) (n + 1 - (s.take (min (k+1) (n+1))).length)
      with ⟨o, bs2, s2, e2⟩
    simp only [List.tail_cons] at hr
    rw [hr] at h
    simp only [Prod.mk.injEq] at h
    obtain ⟨ho, hbs, hs2, he2⟩ := h
    subst ho hbs hs2 he2
    obtain ⟨hsplit, hlen⟩ := ih bs2 s2 e2 hr
    constructor
    · conv_lhs => rw [(List.take_append_drop (min (k+1) (n+1)) s).symm]
      rw [hsplit, List.append_assoc]
    · have h1 : (s.take (min (k+1) (n+1))).length ≤ min (k+1) (n+1) :=
        List.length_take_le _ _
      have h2 : min (k+1) (n+1) ≤ n + 1 := Nat.min_le_right _ _
      simp only [List.length_append]
      omega
  | case5 evs s n ih =>
    intro bs s' e' h
    exact ih bs s' e' (by simpa [readExact] using h)
  | case6 evs s n => intro bs s' e' h; simp [readExact] at h
  | case7 b evs s n => intro bs s' e' h; simp [readExact] at h

/-- Unfolding of one reader loop iteration along a successful frame read. -/
theorem readerRun_step_got (fuel : Nat) (evs : List Ev) (stream : List Nat)
    (g s1 : List Nat) (e1 : List Ev) (hb s2 : List Nat) (e2 : List Ev)
    (pl s3 : List Nat) (e3 : List Ev)
    (h1 : firstRead evs stream = (.got g, s1, e1))
    (h2 : readExact e1 s1 (4 - g.length) = (.ok, hb, s2, e2))
    (h3 : readExact e2 s2 (payloadLength (g ++ hb)) = (.ok, pl, s3, e3)) :
    readerRun (fuel+1) evs stream
      = ((g ++ hb ++ pl) :: (readerRun fuel e3 s3).1, (readerRun fuel e3 s3).2) := by
  simp [readerRun, h1, h2, h3, List.append_assoc]

/-- Unfolding of one reader loop iteration that observes the token. -/
theorem readerRun_cancel_step (fuel : Nat) (evs : List Ev) (s : List Nat) :
    readerRun (fuel+1) (.wouldBlock :: .sel true :: evs) s = ([], .cancelled, s, evs) := rfl

/-- Processing one whole frame under the canonical event script: the frame
is delivered and the loop continues on the rest of the stream. -/
theorem readerRun_frame_step (f rest : List Nat) (evs : List Ev) (fuel : Nat)
    (hf : f.length = 4 + payloadLength (f.take 4)) :
    readerRun (fuel+1) (frameEvents f ++ evs) (f ++ rest)
      = (f :: (readerRun fuel evs rest).1, (readerRun fuel evs rest).2) := by
  have h4 : 4 ≤ f.length := by omega
  have hne : ¬(f ++ rest).isEmpty = true := by
    simp [List.isEmpty_iff, List.append_eq_nil]
    intro hf0
    simp [hf0] at h4
  have htake : (f ++ rest).take 4 = f.take 4 := List.take_append_of_le_length h4
  have hdrop : (f ++ rest).drop 4 = f.drop 4 ++ rest := List.drop_append_of_le_length h4
  have hlen4 : (f.take 4).length = 4 := by
    simp [List.length_take]
    omega
  have h1 : firstRead (frameEvents f ++ evs) (f ++ rest)
      = (.got (f.take 4),
         f.drop 4 ++ rest,
         (if payloadLength (f.take 4) = 0 then ([] : List Ev)
          else [.deliver (payloadLength (f.take 4) - 1)]) ++ evs) := by
    simp only [frameEvents, List.cons_append, firstRead, hne, Bool.false_eq_true, if_false,
      List.append_eq, Nat.reduceAdd, Nat.min_self]
    rw [htake, hdrop]
  have h2 : readExact ((if payloadLength (f.take 4) = 0 then ([] : List Ev)
          else [.deliver (payloadLength (f.take 4) - 1)]) ++ evs)
        (f.drop 4 ++ rest) (4 - (f.take 4).length)
      = (.ok, [],
         f.drop 4 ++ rest,
         (if payloadLength (f.take 4) = 0 then ([] : List Ev)
          else [.deliver (payloadLength (f.take 4) - 1)]) ++ evs) := by
    rw [hlen4]
    exact readExact_zero _ _
  rcases hp : payloadLength (f.take 4) with - | q
  · -- empty payload: the frame is exactly the 4-byte header
    have hfl : f.length = 4 := by omega
    have hdnil : f.drop 4 = [] := List.drop_eq_nil_of_le (by omega)
    have hft : f.take 4 = f := List.take_of_length_le (by omega)
    rw [hp] at h1 h2
    simp only [if_pos rfl, List.nil_append] at h1 h2
    have h3 : readExact evs (f.drop 4 ++ rest) (payloadLength (f.take 4 ++ []))
        = (.ok, [], rest, evs) := by
      simp only [List.append_nil, hp, hdnil, List.nil_append]
      exact readExact_zero _ _
    rw [readerRun_step_got fuel _ _ _ _ _ _ _ _ _ _ _ h1 h2 h3]
    simp [hft]
  · -- nonempty payload of length q+1
    have hdlen : (f.drop 4).length = q + 1 := by
      simp [List.length_drop]
      omega
    have hdne : ¬(f.drop 4 ++ rest).isEmpty = true := by
      simp [List.isEmpty_iff, List.append_eq_nil]
      intro hf0
      simp [hf0] at hdlen
    have htake2 : (f.drop 4 ++ rest).take (q+1) = f.drop 4 := by
      rw [List.take_append_of_le_length (by omega), List.take_of_length_le (by omega)]
    have hdrop2 : (f.drop 4 ++ rest).drop (q+1) = rest := by
      rw [List.drop_append_of_le_length (by omega), List.drop_eq_nil_of_le (by omega),
        List.nil_append]
    rw [hp] at h1 h2
    simp only [Nat.succ_ne_zero, if_false, Nat.add_sub_cancel, List.cons_append,
      List.nil_append] at h1 h2
    have h3 : readExact (Ev.deliver q :: evs) (f.drop 4 ++ rest) (payloadLength (f.take 4 ++ []))
        = (.ok, f.drop 4, rest, evs) := by
      simp only [List.append_nil, hp]
      simp only [readExact, hdne, Bool.false_eq_true, if_false, Nat.min_self]
      rw [htake2, hdrop2, hdlen]
      simp [readExact_zero]
    rw [readerRun_step_got fuel _ _ _ _ _ _ _ _ _ _ _ h1 h2 h3]
    simp [List.take_append_drop]

/-- C4: the reader task observes the token only at the suspension point
before any header byte of the next frame has been consumed: whenever the
run terminates with the `cancelled` outcome, the consumed prefix of the
stream is exactly the concatenation of the delivered frames — zero bytes
of any subsequent frame were consumed — and every delivered frame was
read to completion (its length is 4 plus its decoded payload length), so
the token is never observed in the middle of a frame. -/
theorem cancel_only_between_frames (fuel : Nat) (evs : List Ev) (stream : List Nat)
    (fs : List (List Nat)) (s' : List Nat) (e' : List Ev)
    (h : readerRun fuel evs stream = (fs, .cancelled, s', e')) :
    stream = fs.flatten ++ s' ∧ ∀ f ∈ fs, f.length = 4 + payloadLength (f.take 4) := by
  induction fuel generalizing evs stream fs s' e' with
  | zero => simp [readerRun] at h
  | succ fuel ih =>
    simp only [readerRun] at h
    rcases h1 : firstRead evs stream with ⟨o1, s1, e1⟩
    rw [h1] at h
    cases o1 with
    | got g =>
      dsimp only at h
      rcases h2 : readExact e1 s1 (4 - g.length) with ⟨o2, hb, s2, e2⟩
      rw [h2] at h
      cases o2 with
      | ok =>
        dsimp only at h
        rcases h3 : readExact e2 s2 (payloadLength (g ++ hb)) with ⟨o3, pl, s3, e3⟩
        rw [h3] at h
        cases o3 with
        | ok =>
          dsimp only at h
          rcases h4 : readerRun fuel e3 s3 with ⟨fs4, o4, s4, e4⟩
          rw [h4] at h
          simp only [Prod.mk.injEq] at h
          obtain ⟨hfs, ho, hs', he'⟩ := h
          subst hfs hs' he'
          subst ho
          obtain ⟨hstream4, hcomplete4⟩ := ih e3 s3 fs4 s4 e4 h4
          obtain ⟨hsg, hg4⟩ := firstRead_got_eq _ _ _ _ _ h1
          obtain ⟨hs1, hhb⟩ := readExact_ok_eq _ _ _ _ _ _ h2
          obtain ⟨hs2, hpl⟩ := readExact_ok_eq _ _ _ _ _ _ h3
          have hghb : (g ++ hb).length = 4 := by
            simp only [List.length_append]
            omega
          have htak : ((g ++ hb) ++ pl).take 4 = g ++ hb := by
            rw [List.take_append_of_le_length (by omega),
              List.take_of_length_le (by omega)]
          constructor
          · rw [hsg, hs1, hs2, hstream4]
            simp [List.flatten_cons, List.append_assoc]
          · intro f hf
            rcases List.mem_cons.mp hf with hf | hf
            · subst hf
              rw [htak]
              simp only [List.length_append]
              omega
            · exact hcomplete4 f hf
        | panicEof => simp at h
        | err => simp at h
        | stuck => simp at h
      | panicEof => simp at h
      | err => simp at h
      | stuck => simp at h
    | cancelled =>
      dsimp only at h
      simp only [Prod.mk.injEq] at h
      obtain ⟨hfs, -, hs', he'⟩ := h
      subst hfs hs' he'
      have := firstRead_cancelled_eq _ _ _ _ h1
      simp [this]
    | eofExit => simp at h
    | panicked => simp at h
    | stuck => simp at h

/-- C5: for any byte stream that is the back-to-back concatenation of a
list of valid frames, the reader task delivers exactly those frames to
`onUciMessage`, in arrival order, byte-identical to the input
segmentation, and then observes the token. -/
theorem frames_delivered_in_order (fs : List (List Nat)) (fuel : Nat)
    (hv : ∀ f ∈ fs, f.length = 4 + payloadLength (f.take 4))
    (hfuel : fs.length < fuel) :
    readerRun fuel (framesEvents fs ++ [.wouldBlock, .sel true]) fs.flatten
      = (fs, .cancelled, [], []) := by
  induction fs generalizing fuel with
  | nil =>
    obtain ⟨fuel, rfl⟩ : ∃ k, fuel = k + 1 := ⟨fuel - 1, by omega⟩
    simp only [framesEvents, List.map_nil, List.flatten_nil, List.nil_append]
    exact readerRun_cancel_step _ _ _
  | cons f fs ih =>
    obtain ⟨fuel, rfl⟩ : ∃ k, fuel = k + 1 := ⟨fuel - 1, by omega⟩
    have hval : f.length = 4 + payloadLength (f.take 4) := hv f (by simp)
    have hsplit : framesEvents (f :: fs) ++ [Ev.wouldBlock, Ev.sel true]
        = frameEvents f ++ (framesEvents fs ++ [Ev.wouldBlock, Ev.sel true]) := by
      simp [framesEvents, List.append_assoc]
    rw [hsplit, List.flatten_cons, readerRun_frame_step _ _ _ _ hval,
      ih fuel (fun g hg => hv g (List.mem_cons_of_mem _ hg)) (by simp at hfuel; omega)]

/-- C5 witness: a control frame of payload length 1 followed by a data
frame of payload length 2 are delivered exactly, in order. -/
theorem frames_delivered_in_order_witness :
    readerRun 3 (framesEvents [[32, 0, 0, 1, 9], [0, 0, 2, 0, 170, 187]]
        ++ [.wouldBlock, .sel true])
        ([[32, 0, 0, 1, 9], [0, 0, 2, 0, 170, 187]] : List (List Nat)).flatten
      = ([[32, 0, 0, 1, 9], [0, 0, 2, 0, 170, 187]], .cancelled, [], []) :=
  frames_delivered_in_order [[32, 0, 0, 1, 9], [0, 0, 2, 0, 170, 187]] 3
    (by decide) (by decide)

/-- C4 witness: a run that is cancelled with one pending byte on the
stream has consumed nothing. -/
theorem cancel_only_between_frames_witness :
    ([5] : List Nat) = ([] : List (List Nat)).flatten ++ [5]
    ∧ ∀ f ∈ ([] : List (List Nat)), f.length = 4 + payloadLength (f.take 4) :=
  cancel_only_between_frames 1 [.wouldBlock, .sel true] [5] [] [5] [] (by decide)

/-- C2: the payload length of an assembled frame is decoded from the
4-byte header exactly as the claim states — the little-endian 16-bit
value at header offsets 2-3 when the top 3 bits of byte 0 are 0 (data
type), the single byte at offset 3 otherwise — and the delivered buffer
is exactly the header plus payload, of length 4 plus the payload
length. -/
theorem header_length_decoding (b0 b1 b2 b3 : Nat) (payload : List Nat)
    (_hb2 : b2 < 256) (_hb3 : b3 < 256)
    (hp : payload.length = payloadLength [b0, b1, b2, b3]) :
    ((b0 &&& 0xE0) >>> 5 = 0 → payloadLength [b0, b1, b2, b3] = b2 + 256 * b3)
    ∧ ((b0 &&& 0xE0) >>> 5 ≠ 0 → payloadLength [b0, b1, b2, b3] = b3)
    ∧ readerRun 2 (frameEvents ([b0, b1, b2, b3] ++ payload) ++ [.wouldBlock, .sel true])
        ([b0, b1, b2, b3] ++ payload)
      = ([[b0, b1, b2, b3] ++ payload], .cancelled, [], [])
    ∧ ([b0, b1, b2, b3] ++ payload).length = 4 + payloadLength [b0, b1, b2, b3] := by
  have htk : ([b0, b1, b2, b3] ++ payload).take 4 = [b0, b1, b2, b3] := by
    rw [List.take_append_of_le_length (by simp)]
    simp
  have hlen : ([b0, b1, b2, b3] ++ payload).length = 4 + payloadLength [b0, b1, b2, b3] := by
    simp [hp]
    omega
  refine ⟨?_, ?_, ?_, hlen⟩
  · intro hmt
    simp [payloadLength, hmt]
  · intro hmt
    simp [payloadLength, hmt]
  · have := readerRun_frame_step ([b0, b1, b2, b3] ++ payload) []
      [.wouldBlock, .sel true] 1 (by rw [htk]; exact hlen)
    rw [List.append_nil] at this
    rw [this, readerRun_cancel_step 0 [] []]

/-- C2 witness: a data-type frame with little-endian payload length 2. -/
theorem header_length_decoding_witness :
    ((0 &&& 0xE0) >>> 5 = 0 → payloadLength [0, 0, 2, 0] = 2 + 256 * 0)
    ∧ ((0 &&& 0xE0) >>> 5 ≠ 0 → payloadLength [0, 0, 2, 0] = 0)
    ∧ readerRun 2 (frameEvents ([0, 0, 2, 0] ++ [170, 187]) ++ [.wouldBlock, .sel true])
        ([0, 0, 2, 0] ++ [170, 187])
      = ([[0, 0, 2, 0] ++ [170, 187]], .cancelled, [], [])
    ∧ ([0, 0, 2, 0] ++ [170, 187] : List Nat).length = 4 + payloadLength [0, 0, 2, 0] :=
  header_length_decoding 0 0 2 0 [170, 187] (by decide) (by decide) (by decide)

/-- C6 (amended): a read of zero bytes (end of stream) before any header
byte of the next frame has been consumed makes the reader task log and
exit gracefully; but once at least one byte of a frame has been consumed
— mid-header, or mid-payload after a complete header announcing a
nonempty payload — a read of zero bytes makes the task panic inside
`read_exact` ("unexpectedly reached end of file") instead of exiting
gracefully. -/
theorem eof_behavior (k k' b fuel : Nat) (evs : List Ev)
    (b0 b1 b2 b3 : Nat) (hp : payloadLength [b0, b1, b2, b3] ≠ 0) :
    readerRun (fuel+1) (.deliver k :: evs) [] = ([], .eofExit, [], evs)
    ∧ readerRun (fuel+1) (.deliver k :: .deliver k' :: evs) [b] = ([], .panicked, [], evs)
    ∧ readerRun (fuel+1) (.deliver 3 :: .deliver k' :: evs) [b0, b1, b2, b3]
      = ([], .panicked, [], evs) := by
  refine ⟨?_, ?_, ?_⟩
  · simp [readerRun, firstRead]
  · have hmin : min (k+1) 4 = min k 3 + 1 := Nat.succ_min_succ k 3
    have h1 : firstRead (.deliver k :: .deliver k' :: evs) [b]
        = (.got [b], [], .deliver k' :: evs) := by
      simp [firstRead, hmin]
    simp [readerRun, h1, readExact]
  · have h1 : firstRead (.deliver 3 :: .deliver k' :: evs) [b0, b1, b2, b3]
        = (.got [b0, b1, b2, b3], [], .deliver k' :: evs) := by
      simp [firstRead]
    obtain ⟨q, hq⟩ : ∃ q, payloadLength [b0, b1, b2, b3] = q + 1 :=
      ⟨payloadLength [b0, b1, b2, b3] - 1, by omega⟩
    simp [readerRun, h1, readExact_zero, readExact, hq]

/-- C6 witness: the three end-of-stream behaviors at concrete inputs. -/
theorem eof_behavior_witness :
    readerRun 1 [.deliver 0] [] = ([], .eofExit, [], [])
    ∧ readerRun 1 [.deliver 0, .deliver 0] [32] = ([], .panicked, [], [])
    ∧ readerRun 1 [.deliver 3, .deliver 0] [0, 0, 1, 0] = ([], .panicked, [], []) :=
  eof_behavior 0 0 32 0 [] 0 0 1 0 (by decide)

/-- C6 counterexample: on the concrete stream `[32]` — one header byte
available, then end of stream — the reader task terminates with the
`panicked` outcome, not the graceful logged exit (`eofExit`) that the
claim asserts for a zero-byte read at any point. -/
theorem eof_mid_frame_panics_cex :
    readerRun 2 [.deliver 0, .deliver 0] [32] = ([], .panicked, [], [])
    ∧ ReaderOut.panicked ≠ ReaderOut.eofExit := by
  exact ⟨by decide, by decide⟩

/-- A successful chunk-write loop performs one write action per chunk. -/
theorem writeChunks_shape (rs : List WriteRes) (chunks : List (List Nat))
    (acts : List Act) (h : writeChunks rs chunks = (acts, true)) :
    acts.length = chunks.length ∧ ∀ a ∈ acts, ∃ bs, a = Act.serialWrite bs := by
  induction chunks generalizing rs acts with
  | nil =>
    simp only [writeChunks, Prod.mk.injEq] at h
    simp [← h.1]
  | cons c rest ih =>
    simp only [writeChunks] at h
    rcases hr : rs.headD (.ok c.length) with n | -
    · rw [hr] at h
      rcases hw : writeChunks rs.tail rest with ⟨acts2, ok2⟩
      rw [hw] at h
      simp only [Prod.mk.injEq] at h
      obtain ⟨hacts, hok⟩ := h
      subst hok
      obtain ⟨hl, hall⟩ := ih rs.tail acts2 hw
      subst hacts
      refine ⟨by simp [hl], ?_⟩
      intro a ha
      rcases List.mem_cons.mp ha with ha | ha
      · exact ⟨_, ha⟩
      · exact hall a ha
    · rw [hr] at h
      simp at h

/-- Full characterisation of a successful `State::close` from `Opened`:
unlink, cancel, join, the chunk writes, the 10-byte confirmation drain
and the `CLOSE_CPLT` signal, in that order, and only then `Closed`. -/
theorem stateClose_ok_spec (chunks : List (List Nat)) (orc : CloseOracle) (w : World)
    (acts : List Act)
    (hw : w.session = .Opened) (h1 : orc.unlinkOk = true) (h2 : orc.joinOk = true)
    (h3 : orc.cloneOk = true) (h4 : orc.closeCpltOk = true)
    (h5 : writeChunks orc.writeRes chunks = (acts, true))
    (h6 : 10 ≤ w.rxQueue.length)
    (h7 : w.rxQueue.take 10 = DEVICE_RESET_RSP ++ DEVICE_STATUS_NTF) :
    stateClose chunks orc w
      = (.ok, { session := .Closed, readerRunning := false, deathLinked := false,
                rxQueue := w.rxQueue.drop 10,
                trace := w.trace ++ [.unlink, .cancelToken, .joinTask] ++ acts
                         ++ [.serialRead (DEVICE_RESET_RSP ++ DEVICE_STATUS_NTF),
                             .halEvent .CLOSE_CPLT] }) := by
  simp [stateClose, hw, h1, h2, h3, h4, h5, h7, Nat.not_lt.mpr h6, List.append_assoc]

/-- C1 (amended): the reader task is spawned by `open` immediately before
the state becomes `Opened`; the `close` path joins the task and executes
the full shutdown handshake (reset-command write plus 10-byte
confirmation drain) before the state becomes `Closed`; the caller-death
path, by contrast, only cancels the token and reverts the state to
`Closed` at once, without joining the task, without any handshake I/O and
without signalling `CLOSE_CPLT`. -/
theorem reader_task_lifecycle
    (oorc : OpenOracle) (w1 : World)
    (chunks : List (List Nat)) (corc : CloseOracle) (w2 : World) (acts : List Act)
    (w3 : World)
    (ho1 : w1.session = .Closed) (ho2 : oorc.serialOk = true) (ho3 : oorc.linkOk = true)
    (ho4 : oorc.cloneOk = true) (ho5 : oorc.openCpltOk = true)
    (hc0 : w2.session = .Opened) (hc1 : corc.unlinkOk = true) (hc2 : corc.joinOk = true)
    (hc3 : corc.cloneOk = true) (hc4 : corc.closeCpltOk = true)
    (hc5 : writeChunks corc.writeRes chunks = (acts, true))
    (hc6 : 10 ≤ w2.rxQueue.length)
    (hc7 : w2.rxQueue.take 10 = DEVICE_RESET_RSP ++ DEVICE_STATUS_NTF)
    (hd : w3.session = .Opened) :
    chipOpen oorc w1
      = (.ok, { w1 with session := .Opened, readerRunning := true, deathLinked := true,
                        trace := w1.trace
                                 ++ [.linkDeath, .spawnReader, .halEvent .OPEN_CPLT] })
    ∧ chipClose chunks corc w2
      = (.ok, { session := .Closed, readerRunning := false, deathLinked := false,
                rxQueue := w2.rxQueue.drop 10,
                trace := w2.trace ++ [.unlink, .cancelToken, .joinTask] ++ acts
                         ++ [.serialRead (DEVICE_RESET_RSP ++ DEVICE_STATUS_NTF),
                             .halEvent .CLOSE_CPLT] })
    ∧ deathCallback w3
      = { w3 with session := .Closed, trace := w3.trace ++ [.cancelToken] } := by
  refine ⟨?_, ?_, ?_⟩
  · simp [chipOpen, ho1, ho2, ho3, ho4, ho5, List.append_assoc]
  · rw [chipClose.eq_def, hc0]
    exact stateClose_ok_spec chunks corc w2 acts hc0 hc1 hc2 hc3 hc4 hc5 hc6 hc7
  · rw [deathCallback.eq_def, hd]

/-- C1 counterexample: from a concrete `Opened` state with the reader
task live, the caller-death trigger reverts the state to `Closed` while
the reader task is still running: no join was performed and no handshake
action (no serial write, no confirmation read, no `CLOSE_CPLT`) was
recorded — only the token was cancelled. -/
theorem death_path_skips_handshake_cex :
    deathCallback { session := .Opened, readerRunning := true, deathLinked := true,
                    rxQueue := [], trace := [] }
      = { session := .Closed, readerRunning := true, deathLinked := true,
          rxQueue := [], trace := [Act.cancelToken] }
    ∧ Act.joinTask ∉ [Act.cancelToken]
    ∧ Act.halEvent .CLOSE_CPLT ∉ [Act.cancelToken] := by
  exact ⟨by decide, by decide, by decide⟩

/-- C1 witness: the three lifecycle facts at concrete inputs. -/
theorem reader_task_lifecycle_witness :
    chipOpen { serialOk := true, linkOk := true, cloneOk := true, openCpltOk := true }
        { session := .Closed, readerRunning := false, deathLinked := false,
          rxQueue := [], trace := [] }
      = (.ok, { session := .Opened, readerRunning := true, deathLinked := true,
                rxQueue := [],
                trace := [.linkDeath, .spawnReader, .halEvent .OPEN_CPLT] })
    ∧ chipClose [[32, 0, 0, 1, 0]]
        { unlinkOk := true, joinOk := true, cloneOk := true,
          writeRes := [.ok 5], closeCpltOk := true }
        { session := .Opened, readerRunning := true, deathLinked := true,
          rxQueue := [64, 0, 0, 1, 0, 96, 1, 0, 1, 1], trace := [] }
      = (.ok, { session := .Closed, readerRunning := false, deathLinked := false,
                rxQueue := [],
                trace := [.unlink, .cancelToken, .joinTask, .serialWrite [32, 0, 0, 1, 0],
                          .serialRead (DEVICE_RESET_RSP ++ DEVICE_STATUS_NTF),
                          .halEvent .CLOSE_CPLT] })
    ∧ deathCallback { session := .Opened, readerRunning := true, deathLinked := true,
                      rxQueue := [], trace := [] }
      = { session := .Closed, readerRunning := true, deathLinked := true,
          rxQueue := [], trace := [Act.cancelToken] } := by
  have h := reader_task_lifecycle
    { serialOk := true, linkOk := true, cloneOk := true, openCpltOk := true }
    { session := .Closed, readerRunning := false, deathLinked := false,
      rxQueue := [], trace := [] }
    [[32, 0, 0, 1, 0]]
    { unlinkOk := true, joinOk := true, cloneOk := true,
      writeRes := [.ok 5], closeCpltOk := true }
    { session := .Opened, readerRunning := true, deathLinked := true,
      rxQueue := [64, 0, 0, 1, 0, 96, 1, 0, 1, 1], trace := [] }
    [Act.serialWrite [32, 0, 0, 1, 0]]
    { session := .Opened, readerRunning := true, deathLinked := true,
      rxQueue := [], trace := [] }
    rfl rfl rfl rfl rfl rfl rfl rfl rfl rfl (by decide) (by decide) (by decide) rfl
  simpa using h

/-- C3 (amended): on every successful `close()`, one `write` call is
issued for each transport-level chunk of the encoded reset command — the
accepted byte count of each write is discarded, so the transmission may
be short — and all of these writes precede any confirmation read; then
exactly 10 confirmation bytes (5 + 5) are drained and are byte-for-byte
the fixed patterns `[64,0,0,1,0]` followed by `[96,1,0,1,1]`; only after
that is `CLOSE_CPLT` signalled to the callbacks. -/
theorem close_handshake_sequence (chunks : List (List Nat)) (orc : CloseOracle)
    (w : World) (acts : List Act)
    (hw : w.session = .Opened) (h1 : orc.unlinkOk = true) (h2 : orc.joinOk = true)
    (h3 : orc.cloneOk = true) (h4 : orc.closeCpltOk = true)
    (h5 : writeChunks orc.writeRes chunks = (acts, true))
    (h6 : 10 ≤ w.rxQueue.length)
    (h7 : w.rxQueue.take 10 = DEVICE_RESET_RSP ++ DEVICE_STATUS_NTF) :
    chipClose chunks orc w
      = (.ok, { session := .Closed, readerRunning := false, deathLinked := false,
                rxQueue := w.rxQueue.drop 10,
                trace := w.trace ++ [.unlink, .cancelToken, .joinTask] ++ acts
                         ++ [.serialRead (DEVICE_RESET_RSP ++ DEVICE_STATUS_NTF),
                             .halEvent .CLOSE_CPLT] })
    ∧ acts.length = chunks.length
    ∧ (∀ a ∈ acts, ∃ bs, a = Act.serialWrite bs)
    ∧ (DEVICE_RESET_RSP ++ DEVICE_STATUS_NTF).length = 10 := by
  obtain ⟨hl, hall⟩ := writeChunks_shape orc.writeRes chunks acts h5
  refine ⟨?_, hl, hall, by decide⟩
  rw [chipClose.eq_def, hw]
  exact stateClose_ok_spec chunks orc w acts hw h1 h2 h3 h4 h5 h6 h7

/-- C3 counterexample: with the reset command encoded as the single chunk
`[32,0,0,1,0]` and a transport that accepts only one byte of the write,
`close` still succeeds, yet the only bytes put on the transport before
the confirmation read are `[32]` — the reset command was not transmitted
fully. -/
theorem close_short_write_cex :
    chipClose [[32, 0, 0, 1, 0]]
        { unlinkOk := true, joinOk := true, cloneOk := true,
          writeRes := [.ok 1], closeCpltOk := true }
        { session := .Opened, readerRunning := true, deathLinked := true,
          rxQueue := [64, 0, 0, 1, 0, 96, 1, 0, 1, 1], trace := [] }
      = (.ok, { session := .Closed, readerRunning := false, deathLinked := false,
                rxQueue := [],
                trace := [.unlink, .cancelToken, .joinTask, .serialWrite [32],
                          .serialRead [64, 0, 0, 1, 0, 96, 1, 0, 1, 1],
                          .halEvent .CLOSE_CPLT] })
    ∧ [32] ≠ [32, 0, 0, 1, 0] := by
  exact ⟨by decide, by decide⟩

/-- C3 witness: the handshake characterisation at concrete inputs. -/
theorem close_handshake_sequence_witness :
    chipClose [[32, 0, 0, 1, 0]]
        { unlinkOk := true, joinOk := true, cloneOk := true,
          writeRes := [.ok 5], closeCpltOk := true }
        { session := .Opened, readerRunning := true, deathLinked := true,
          rxQueue := [64, 0, 0, 1, 0, 96, 1, 0, 1, 1], trace := [] }
      = (.ok, { session := .Closed, readerRunning := false, deathLinked := false,
                rxQueue := [],
                trace := [.unlink, .cancelToken, .joinTask, .serialWrite [32, 0, 0, 1, 0],
                          .serialRead (DEVICE_RESET_RSP ++ DEVICE_STATUS_NTF),
                          .halEvent .CLOSE_CPLT] })
    ∧ ([Act.serialWrite [32, 0, 0, 1, 0]] : List Act).length = [[32, 0, 0, 1, 0]].length
    ∧ (∀ a ∈ ([Act.serialWrite [32, 0, 0, 1, 0]] : List Act), ∃ bs, a = Act.serialWrite bs)
    ∧ (DEVICE_RESET_RSP ++ DEVICE_STATUS_NTF).length = 10 := by
  have h := close_handshake_sequence [[32, 0, 0, 1, 0]]
    { unlinkOk := true, joinOk := true, cloneOk := true,
      writeRes := [.ok 5], closeCpltOk := true }
    { session := .Opened, readerRunning := true, deathLinked := true,
      rxQueue := [64, 0, 0, 1, 0, 96, 1, 0, 1, 1], trace := [] }
    [Act.serialWrite [32, 0, 0, 1, 0]]
    rfl rfl rfl rfl rfl (by decide) (by decide) (by decide)
  simpa using h

/-- C7: an operation invoked in a state that forbids it fails with
`ILLEGAL_STATE` and leaves the state (and every resource and the action
trace) unchanged: `open` when already `Opened`, and `close` when already
`Closed`. -/
theorem illegal_state_ops (oorc : OpenOracle) (corc : CloseOracle)
    (chunks : List (List Nat)) (w w' : World)
    (hw : w.session = .Opened) (hw' : w'.session = .Closed) :
    chipOpen oorc w = (.err .illegalState, w)
    ∧ chipClose chunks corc w' = (.err .illegalState, w') := by
  constructor
  · rw [chipOpen.eq_def, hw]
  · rw [chipClose.eq_def, hw']

/-- C7 witness: the two illegal-state failures at concrete inputs. -/
theorem illegal_state_ops_witness :
    chipOpen { serialOk := true, linkOk := true, cloneOk := true, openCpltOk := true }
        { session := .Opened, readerRunning := true, deathLinked := true,
          rxQueue := [7], trace := [Act.spawnReader] }
      = (.err .illegalState,
         { session := .Opened, readerRunning := true, deathLinked := true,
           rxQueue := [7], trace := [Act.spawnReader] })
    ∧ chipClose [[32, 0, 0, 1, 0]]
        { unlinkOk := true, joinOk := true, cloneOk := true,
          writeRes := [], closeCpltOk := true }
        { session := .Closed, readerRunning := false, deathLinked := false,
          rxQueue := [], trace := [] }
      = (.err .illegalState,
         { session := .Closed, readerRunning := false, deathLinked := false,
           rxQueue := [], trace := [] }) :=
  illegal_state_ops
    { serialOk := true, linkOk := true, cloneOk := true, openCpltOk := true }
    { unlinkOk := true, joinOk := true, cloneOk := true,
      writeRes := [], closeCpltOk := true }
    [[32, 0, 0, 1, 0]]
    { session := .Opened, readerRunning := true, deathLinked := true,
      rxQueue := [7], trace := [Act.spawnReader] }
    { session := .Closed, readerRunning := false, deathLinked := false,
      rxQueue := [], trace := [] }
    rfl rfl

/-- C8: `sendUciMessage` requires the `Opened` state (it fails with
`ILLEGAL_STATE` when `Closed`); when `Opened` it writes the entire buffer
through the write-until-complete `write_all` primitive (the recorded
write is the whole buffer, never a short write) and returns the byte
count of the buffer; any I/O failure is reported as the generic
`UNKNOWN_ERROR` with no retry and no bytes recorded. -/
theorem send_requires_opened (orcOk orcBad orcAny : SendOracle) (data : List Nat)
    (w w' : World) (hw : w.session = .Opened) (hw' : w'.session = .Closed)
    (hok : orcOk.writeAllOk = true) (hbad : orcBad.writeAllOk = false) :
    sendUciMessage orcOk data w
      = (.ok data.length, { w with trace := w.trace ++ [.serialWrite data] })
    ∧ sendUciMessage orcBad data w = (.error .unknownError, w)
    ∧ sendUciMessage orcAny data w' = (.error .illegalState, w') := by
  refine ⟨?_, ?_, ?_⟩
  · rw [sendUciMessage.eq_def, hw, hok]
    rfl
  · rw [sendUciMessage.eq_def, hw, hbad]
    rfl
  · rw [sendUciMessage.eq_def, hw']

/-- C8 witness: the three send behaviors at concrete inputs. -/
theorem send_requires_opened_witness :
    sendUciMessage { writeAllOk := true } [32, 4, 0, 0]
        { session := .Opened, readerRunning := true, deathLinked := true,
          rxQueue := [], trace := [] }
      = (.ok 4, { session := .Opened, readerRunning := true, deathLinked := true,
                  rxQueue := [], trace := [Act.serialWrite [32, 4, 0, 0]] })
    ∧ sendUciMessage { writeAllOk := false } [32, 4, 0, 0]
        { session := .Opened, readerRunning := true, deathLinked := true,
          rxQueue := [], trace := [] }
      = (.error .unknownError,
         { session := .Opened, readerRunning := true, deathLinked := true,
           rxQueue := [], trace := [] })
    ∧ sendUciMessage { writeAllOk := true } [32, 4, 0, 0]
        { session := .Closed, readerRunning := false, deathLinked := false,
          rxQueue := [], trace := [] }
      = (.error .illegalState,
         { session := .Closed, readerRunning := false, deathLinked := false,
           rxQueue := [], trace := [] }) := by
  have h := send_requires_opened { writeAllOk := true } { writeAllOk := false }
    { writeAllOk := true } [32, 4, 0, 0]
    { session := .Opened, readerRunning := true, deathLinked := true,
      rxQueue := [], trace := [] }
    { session := .Closed, readerRunning := false, deathLinked := false,
      rxQueue := [], trace := [] }
    rfl rfl rfl rfl
  simpa using h

/-- C9: when the 10 drained confirmation bytes do not match the two fixed
patterns byte-for-byte, `close` panics — the whole process aborts on the
failed `assert_eq` — instead of returning any recoverable error. -/
theorem handshake_mismatch_aborts (chunks : List (List Nat)) (orc : CloseOracle)
    (w : World) (acts : List Act)
    (hw : w.session = .Opened) (h1 : orc.unlinkOk = true) (h2 : orc.joinOk = true)
    (h3 : orc.cloneOk = true)
    (h5 : writeChunks orc.writeRes chunks = (acts, true))
    (h6 : 10 ≤ w.rxQueue.length)
    (h7 : w.rxQueue.take 10 ≠ DEVICE_RESET_RSP ++ DEVICE_STATUS_NTF) :
    (chipClose chunks orc w).1 = .panic
    ∧ ∀ e, (chipClose chunks orc w).1 ≠ .err e := by
  have hch : chipClose chunks orc w
      = (.panic, { session := w.session, readerRunning := false, deathLinked := false,
                   rxQueue := w.rxQueue.drop 10,
                   trace := w.trace ++ [.unlink, .cancelToken, .joinTask] ++ acts
                            ++ [.serialRead (w.rxQueue.take 10)] }) := by
    rw [chipClose.eq_def, hw]
    simp [stateClose, hw, h1, h2, h3, h5, h7, Nat.not_lt.mpr h6, List.append_assoc]
  rw [hch]
  exact ⟨rfl, fun e => by simp⟩

/-- C9 witness: a mismatching confirmation drain at concrete inputs. -/
theorem handshake_mismatch_aborts_witness :
    (chipClose [[32, 0, 0, 1, 0]]
        { unlinkOk := true, joinOk := true, cloneOk := true,
          writeRes := [.ok 5], closeCpltOk := true }
        { session := .Opened, readerRunning := true, deathLinked := true,
          rxQueue := [0, 0, 0, 0, 0, 0, 0, 0, 0, 0], trace := [] }).1 = .panic
    ∧ ∀ e, (chipClose [[32, 0, 0, 1, 0]]
        { unlinkOk := true, joinOk := true, cloneOk := true,
          writeRes := [.ok 5], closeCpltOk := true }
        { session := .Opened, readerRunning := true, deathLinked := true,
          rxQueue := [0, 0, 0, 0, 0, 0, 0, 0, 0, 0], trace := [] }).1 ≠ .err e :=
  handshake_mismatch_aborts [[32, 0, 0, 1, 0]]
    { unlinkOk := true, joinOk := true, cloneOk := true,
      writeRes := [.ok 5], closeCpltOk := true }
    { session := .Opened, readerRunning := true, deathLinked := true,
      rxQueue := [0, 0, 0, 0, 0, 0, 0, 0, 0, 0], trace := [] }
    [Act.serialWrite [32, 0, 0, 1, 0]]
    rfl rfl rfl rfl (by decide) (by decide) (by decide)

/-- C10: when `open` succeeds through spawning the reader task but the
`OPEN_CPLT` signal to the callbacks fails, `open` returns the error and
the session state remains `Closed`, while the already-spawned reader task
keeps running and the death recipient stays linked — at this edge,
`Closed` holds live resources. -/
theorem open_cplt_failure_leaks_reader (orc : OpenOracle) (w : World)
    (h0 : w.session = .Closed) (h1 : orc.serialOk = true) (h2 : orc.linkOk = true)
    (h3 : orc.cloneOk = true) (h4 : orc.openCpltOk = false) :
    chipOpen orc w
      = (.err .callbackErr,
         { w with readerRunning := true, deathLinked := true,
                  trace := w.trace ++ [.linkDeath, .spawnReader, .halEvent .OPEN_CPLT] })
    ∧ (chipOpen orc w).2.session = .Closed
    ∧ (chipOpen orc w).2.readerRunning = true
    ∧ (chipOpen orc w).2.deathLinked = true := by
  have hch : chipOpen orc w
      = (.err .callbackErr,
         { w with readerRunning := true, deathLinked := true,
                  trace := w.trace ++ [.linkDeath, .spawnReader, .halEvent .OPEN_CPLT] }) := by
    rw [chipOpen.eq_def, h0]
    simp [h1, h2, h3, h4, List.append_assoc]
  rw [hch]
  exact ⟨rfl, h0, rfl, rfl⟩

/-- C10 witness: the leaking open failure at a concrete input. -/
theorem open_cplt_failure_leaks_reader_witness :
    chipOpen { serialOk := true, linkOk := true, cloneOk := true, openCpltOk := false }
        { session := .Closed, readerRunning := false, deathLinked := false,
          rxQueue := [], trace := [] }
      = (.err .callbackErr,
         { session := .Closed, readerRunning := true, deathLinked := true,
           rxQueue := [],
           trace := [.linkDeath, .spawnReader, .halEvent .OPEN_CPLT] })
    ∧ (chipOpen { serialOk := true, linkOk := true, cloneOk := true, openCpltOk := false }
        { session := .Closed, readerRunning := false, deathLinked := false,
          rxQueue := [], trace := [] }).2.session = .Closed
    ∧ (chipOpen { serialOk := true, linkOk := true, cloneOk := true, openCpltOk := false }
        { session := .Closed, readerRunning := false, deathLinked := false,
          rxQueue := [], trace := [] }).2.readerRunning = true
    ∧ (chipOpen { serialOk := true, linkOk := true, cloneOk := true, openCpltOk := false }
        { session := .Closed, readerRunning := false, deathLinked := false,
          rxQueue := [], trace := [] }).2.deathLinked = true := by
  have h := open_cplt_failure_leaks_reader
    { serialOk := true, linkOk := true, cloneOk := true, openCpltOk := false }
    { session := .Closed, readerRunning := false, deathLinked := false,
      rxQueue := [], trace := [] }
    rfl rfl rfl rfl rfl
  simpa using h

end Uwb
